import Mathlib

/-!
# Verification of the turbine static-file server

Shallow embedding of the turbine HTTP server (src/http.rs, src/resolver.rs,
src/server.rs) and proofs about its request framing and resource resolution.

Modelling conventions:
* Rust `String`/`&str` request text is modelled as `List Char`; Rust splits
  (`split("\r\n")`, `split_whitespace`, splitting a path on `/`) are modelled
  by structurally recursive functions with the same semantics.
* Filesystem paths are modelled as lists of components (`List String`), the
  form in which Rust's `Path::starts_with` and `Path::join` compare and
  concatenate them.  The filesystem itself is a map from absolute component
  paths to entry kinds (file / directory / symlink / other).
* `std::fs::canonicalize` (POSIX `realpath`) is modelled by `canonicalize`
  below: it walks the components from the root, resolving `.`, `..` and
  symbolic links against the real filesystem, fails when a component does not
  exist or a non-final component is not a directory, and — as POSIX requires —
  fails when the path has a trailing separator but resolves to a non-directory.
  Symlink expansion is bounded by a fuel parameter modelling the kernel's
  ELOOP limit.
* `std::io::Error` payloads are dropped: every IO failure is collapsed into a
  single error constructor, which is all the program ever distinguishes.
-/

namespace Turbine

/-! ## Data model: errors, methods, headers, requests (src/http.rs) -/

/-- Absolute filesystem path as a list of components, the unit at which
Rust's `Path::starts_with`/`join` operate. -/
abbrev HttpPathT := List String

/-- Errors that can occur when parsing a http request (`ParseError` in
src/http.rs).  The `IO` variant's `std::io::Error` payload is dropped. -/
inductive ParseError where
  | EmptyRequest : ParseError
  | InvalidHeaders : ParseError
  | IOError : ParseError
  | InvalidMethod : List Char → ParseError
  | InvalidPath : HttpPathT → ParseError
deriving DecidableEq, Repr

/-- Supported HTTP methods (`Method` in src/http.rs). -/
inductive Method where
  | Get : Method
  | Post : Method
deriving DecidableEq, Repr

/-- Representation of HTTP headers (`Headers` in src/http.rs).  The
`other_headers` map is always left empty by the source (`HashMap::new()`). -/
structure Headers where
  method : Method
  resource : List Char
  version : List Char
  other_headers : List (List Char × List Char)
deriving DecidableEq, Repr

/-- Model of `Headers::new` from src/http.rs: the `headers.len() != 3` check is the
three-element pattern; with exactly three tokens the method token must be
exactly "GET" or "POST", and the raw second and third tokens become the
resource and version. -/
def Headers.new (headers : List (List Char)) : Except ParseError Headers :=
  match headers with
  | [m, r, v] =>
    if m = "GET".toList then
      Except.ok { method := Method.Get, resource := r, version := v, other_headers := [] }
    else if m = "POST".toList then
      Except.ok { method := Method.Post, resource := r, version := v, other_headers := [] }
    else
      Except.error (ParseError.InvalidMethod m)
  | _ => Except.error ParseError.InvalidHeaders

/-- Representation of a HTTP request (`Request` in src/http.rs). -/
structure Request where
  headers : Headers
  body : List Char
deriving DecidableEq, Repr

/-- Rust `request.split("\r\n")`: split on every (non-overlapping, leftmost)
occurrence of the two-character separator; the empty string splits to one
empty piece. -/
def splitCRLF : List Char → List (List Char)
  | [] => [[]]
  | '\r' :: '\n' :: rest => [] :: splitCRLF rest
  | c :: rest =>
    match splitCRLF rest with
    | [] => [[c]]
    | l :: ls => (c :: l) :: ls

/-- Rust `str::split_whitespace`, accumulator pass: splits at whitespace and
drops empty tokens. -/
def splitWsAux : List Char → List Char → List (List Char)
  | [], cur => if cur.isEmpty then [] else [cur.reverse]
  | c :: rest, cur =>
    if c.isWhitespace then
      if cur.isEmpty then splitWsAux rest [] else cur.reverse :: splitWsAux rest []
    else
      splitWsAux rest (c :: cur)

/-- Rust `str::split_whitespace`. -/
def splitWs (s : List Char) : List (List Char) := splitWsAux s []

/-- Model of `Request::new` from src/http.rs: split the text on "\r\n", take the first
line (`ok_or(EmptyRequest)?`), split it on whitespace, build the headers, and
leave the body empty (`Vec::new()`). -/
def Request.new (request : List Char) : Except ParseError Request :=
  match (splitCRLF request).head? with
  | none => Except.error ParseError.EmptyRequest
  | some first_line =>
    match Headers.new (splitWs first_line) with
    | Except.error e => Except.error e
    | Except.ok headers => Except.ok { headers := headers, body := [] }

namespace Server

/-! ## Request framing (src/server.rs) -/

/-- The `END_OF_CONTENT` constant `"\r\n\r\n"` from src/server.rs, as
characters (the request side works on bytes; all are ASCII). -/
def endOfContentChars : List Char := ['\r', '\n', '\r', '\n']

/-- Rust `request.ends_with(b"\r\n\r\n")`. -/
def endsWithTerminator (s : List Char) : Bool := List.isSuffixOf endOfContentChars s

/-- The accumulation loop of `Server::read_stream_content_to_end`
(src/server.rs): the incoming stream is a list of successive non-empty reads;
an exhausted list models the zero-length read of a closed connection.  Each
chunk is appended to the accumulator and the loop stops as soon as the
accumulated bytes end with the blank-line terminator, or at end of stream. -/
def readStream : List (List Char) → List Char → List Char
  | [], acc => acc
  | ch :: rest, acc =>
    if endsWithTerminator (acc ++ ch) then acc ++ ch
    else readStream rest (acc ++ ch)

/-- Model of `Server::read_stream_content_to_end` (src/server.rs): accumulate the
stream, decode (`from_utf8_lossy`, modelled as the identity at `Char` level)
and parse with `Request::new`. -/
def read_stream_content_to_end (chunks : List (List Char)) : Except ParseError Request :=
  Request.new (readStream chunks [])

end Server

/-! ## Filesystem model and resource resolution (src/resolver.rs, src/http.rs) -/

/-- Kind of a filesystem entry.  A symlink stores its target pre-parsed:
whether it is absolute and its components.  `other` covers existing entries
that are neither regular files nor directories (sockets, devices, ...). -/
inductive Entry where
  | file : Entry
  | dir : Entry
  | symlink : Bool → List String → Entry
  | other : Entry
deriving DecidableEq, Repr

/-- A filesystem: `lookup` maps an absolute, fully resolved component path to
the kind of entry living there (`none` = nothing exists there), and `content`
gives the text contents of regular files.  `content` is only used to state
specification-level properties; the program itself never reads it. -/
structure FS where
  lookup : List String → Option Entry
  content : List String → Option String

/-- An existing regular file, per `Path::is_file` after canonicalization. -/
def FS.isFile (fs : FS) (p : List String) : Bool := fs.lookup p == some Entry.file

/-- An existing directory, per `Path::is_dir` after canonicalization. -/
def FS.isDir (fs : FS) (p : List String) : Bool := fs.lookup p == some Entry.dir

/-- Step budget of the canonicalization model: bounds the walked components
and followed symlinks together, modelling the kernel's ELOOP limit on link
expansion.  It is chosen large enough that no concrete path considered here
comes near it, and every symbolic theorem below conditions on the outcome of
canonicalization rather than on the budget. -/
def linkFuel : Nat := 512

/-- Component walk of POSIX `realpath` (the meaning of
`std::fs::canonicalize` on the raw joined path): starting from the root,
`.` is skipped, `..` moves to the parent (the root is its own parent),
a missing component fails (ENOENT), a non-directory in non-final position
fails (ENOTDIR), and a symlink's components are spliced in front of the
remaining ones (restarting from the root if the target is absolute), bounded
by fuel (ELOOP).  All failures collapse into `none`. -/
def resolveComps (fs : FS) : Nat → List String → List String → Option (List String)
  | _, cur, [] => some cur
  | 0, _, _ :: _ => none
  | fuel + 1, cur, c :: rest =>
    if c = "." then resolveComps fs fuel cur rest
    else if c = ".." then resolveComps fs fuel cur.dropLast rest
    else
      match fs.lookup (cur ++ [c]) with
      | none => none
      | some Entry.file => if rest.isEmpty then some (cur ++ [c]) else none
      | some Entry.other => if rest.isEmpty then some (cur ++ [c]) else none
      | some Entry.dir => resolveComps fs fuel (cur ++ [c]) rest
      | some (Entry.symlink abs target) =>
        resolveComps fs fuel (if abs then [] else cur) (target ++ rest)

/-- Model of `std::fs::canonicalize` of a path given by components plus a
trailing-separator flag: resolve the components; a trailing separator
additionally requires the result to be a directory (POSIX: a pathname ending
in a slash resolves only if its last component names a directory). -/
def canonicalize (fs : FS) (comps : List String) (trailing : Bool) : Option (List String) :=
  match resolveComps fs linkFuel [] comps with
  | none => none
  | some q => if trailing then (if fs.isDir q then some q else none) else some q

/-- Model of `HttpPath::try_from` (src/http.rs): canonicalize the path (an IO failure
becomes `ParseError::IO`); an existing regular file is returned as is; an
existing directory gets the default file name `index.html` joined onto it —
with no further check; anything else is `InvalidPath` carrying the
canonicalized path. -/
def HttpPath.try_from (fs : FS) (comps : List String) (trailing : Bool) :
    Except ParseError HttpPathT :=
  match canonicalize fs comps trailing with
  | none => Except.error ParseError.IOError
  | some canonicalized_path =>
    if fs.isFile canonicalized_path then Except.ok canonicalized_path
    else if fs.isDir canonicalized_path then Except.ok (canonicalized_path ++ ["index.html"])
    else Except.error (ParseError.InvalidPath canonicalized_path)

/-- Errors that can occur when resolving a resource (`ResolveError` in
src/resolver.rs). -/
inductive ResolveError where
  | PathOutsideDocumentRoot : HttpPathT → ResolveError
  | PathShouldStartWithSlash : List Char → ResolveError
  | HttpPathError : ParseError → ResolveError
deriving DecidableEq, Repr

/-- A path separator character. -/
def isSlash (c : Char) : Bool := c == '/'

/-- Accumulator pass splitting a relative path string into its non-empty
components (Rust's path joining treats embedded `/` as segment boundaries
and `realpath` ignores empty segments). -/
def pathCompsAux : List Char → List Char → List String
  | [], cur => if cur.isEmpty then [] else [String.mk cur.reverse]
  | c :: rest, cur =>
    if isSlash c then
      if cur.isEmpty then pathCompsAux rest [] else String.mk cur.reverse :: pathCompsAux rest []
    else
      pathCompsAux rest (c :: cur)

/-- Components of a path string. -/
def pathComps (s : List Char) : List String := pathCompsAux s []

/-- Whether the joined candidate path carries a trailing separator: the
trimmed suffix ends with `/`, or is empty (Rust's `join("")` appends a
separator to the document root). -/
def trailingSlash (t : List Char) : Bool := t.isEmpty || t.getLast? == some '/'

/-- Model of `Resolver::resolve` (src/resolver.rs): reject a resource that does not
start with `/`; strip every leading `/`; join the remainder onto the
(already canonicalized) document root; convert through `HttpPath::try_from`;
finally require the result to start with the document root
(`Path::starts_with` = component-wise prefix). -/
def Resolver.resolve (fs : FS) (document_root : HttpPathT) (resource : List Char) :
    Except ResolveError HttpPathT :=
  if resource.head? ≠ some '/' then
    Except.error (ResolveError.PathShouldStartWithSlash resource)
  else
    match HttpPath.try_from fs (document_root ++ pathComps (resource.dropWhile isSlash))
        (trailingSlash (resource.dropWhile isSlash)) with
    | Except.error e => Except.error (ResolveError.HttpPathError e)
    | Except.ok http_path =>
      if List.isPrefixOf document_root http_path then Except.ok http_path
      else Except.error (ResolveError.PathOutsideDocumentRoot http_path)

namespace Server

/-! ## Connection handling and the response (src/server.rs) -/

/-- Model of `ServerError` from src/server.rs (payloads of the `IO` and `Conversion`
variants dropped). -/
inductive ServerError where
  | IOFailure : ServerError
  | Conversion : ServerError
  | RequestParsing : ParseError → ServerError
  | ResolverError : ResolveError → ServerError
deriving DecidableEq, Repr

/-- Constant `END_OF_CONTENT: &str = "\r\n\r\n"` (src/server.rs). -/
def END_OF_CONTENT : String := "\r\n\r\n"

/-- Constant `HEADER_STATUS: &str = "HTTP/1.1 200 OK\r\n"` (src/server.rs). -/
def HEADER_STATUS : String := "HTTP/1.1 200 OK\r\n"

/-- Constant `HEADER_CONTENT_TYPE` (src/server.rs). -/
def HEADER_CONTENT_TYPE : String := "Content-Type: text/html; charset=UTF-8\r\n"

/-- Constant `NEW_LINE: &str = "\r\n"` (src/server.rs). -/
def NEW_LINE : String := "\r\n"

/-- The string literal hard-coded in `Server::get_resource_content`
(src/server.rs lines 120-131), byte for byte. -/
def turbineHtml : String :=
  "<html>\n        <head>\n        <title>\n            Turbine\n        </title>\n        </head>\n        \n        <body>\n            Welcome to turbine\n        </body>\n        \n        </html>"

/-- Model of `Server::get_resource_content` (src/server.rs): the `fs::read_to_string`
call is commented out in the source; the function ignores the resolved path
and returns the hard-coded page.  (Its doc comment still says "Reads the
content of the file specified by the resource path".) -/
def get_resource_content (resource : HttpPathT) : Except Unit String :=
  Except.ok turbineHtml

/-- Model of `Server::parse_request` (src/server.rs): build a resolver over the
document root and resolve the request's resource. -/
def parse_request (request : Request) (document_root : HttpPathT) (fs : FS) :
    Except ResolveError HttpPathT :=
  Resolver.resolve fs document_root request.headers.resource

/-- Model of `Server::serve_file` (src/server.rs): frame the request, resolve the
resource, read the content, and perform the six `write_all` calls.  The
result is the list of written chunks, in order: status line, content-type
header, content-length header, blank line, body, trailing terminator. -/
def serve_file (fs : FS) (document_root : HttpPathT) (chunks : List (List Char)) :
    Except ServerError (List String) :=
  match Server.read_stream_content_to_end chunks with
  | Except.error e => Except.error (ServerError.RequestParsing e)
  | Except.ok request =>
    match parse_request request document_root fs with
    | Except.error e => Except.error (ServerError.ResolverError e)
    | Except.ok resource =>
      match get_resource_content resource with
      | Except.error _ => Except.error ServerError.IOFailure
      | Except.ok resource_content =>
        let content_length := resource_content.length + END_OF_CONTENT.length
        Except.ok [ HEADER_STATUS, HEADER_CONTENT_TYPE,
                    "Content-Length: " ++ toString content_length ++ "\r\n",
                    NEW_LINE, resource_content, END_OF_CONTENT ]

end Server

/-! ## A concrete document tree used for witnesses and counterexamples

Document root `/srv/web`, holding `index.html`, `foo/index.html`, a directory
`d` whose `index.html` is a symbolic link to `/etc/passwd`, an empty
directory `emptydir`, a regular file `bar.html`, and a socket `sock`. -/

/-- Entries of the concrete example filesystem. -/
def exEntries : List (List String × Entry) :=
  [ ([], Entry.dir), (["srv"], Entry.dir), (["srv", "web"], Entry.dir),
    (["srv", "web", "index.html"], Entry.file),
    (["srv", "web", "foo"], Entry.dir),
    (["srv", "web", "foo", "index.html"], Entry.file),
    (["srv", "web", "d"], Entry.dir),
    (["srv", "web", "d", "index.html"], Entry.symlink true ["etc", "passwd"]),
    (["srv", "web", "emptydir"], Entry.dir),
    (["srv", "web", "bar.html"], Entry.file),
    (["srv", "web", "sock"], Entry.other),
    (["etc"], Entry.dir), (["etc", "passwd"], Entry.file) ]

/-- The concrete example filesystem; `/srv/web/index.html` contains the text
"hello". -/
def exFS : FS where
  lookup p := (exEntries.find? (fun e => e.1 == p)).map (fun e => e.2)
  content p := if p == ["srv", "web", "index.html"] then some "hello" else none

/-- The canonicalized document root of the example filesystem. -/
def exRoot : HttpPathT := ["srv", "web"]

/-- Writes produced by a successful `serve_file` for the hard-coded page. -/
def exResponse : List String :=
  [ Server.HEADER_STATUS, Server.HEADER_CONTENT_TYPE,
    "Content-Length: " ++ toString (Server.turbineHtml.length + Server.END_OF_CONTENT.length) ++ "\r\n",
    Server.NEW_LINE, Server.turbineHtml, Server.END_OF_CONTENT ]

/-! ## Observers used to state properties -/

/-- First line of a text: the characters before the first "\r\n". -/
def firstLineOf : List Char → List Char
  | [] => []
  | '\r' :: '\n' :: _ => []
  | c :: rest => c :: firstLineOf rest

/-- Whether the text contains the sequence "\r\n". -/
def hasCRLF : List Char → Bool
  | [] => false
  | '\r' :: '\n' :: _ => true
  | _ :: rest => hasCRLF rest

/-- Whether the text contains the blank-line terminator "\r\n\r\n". -/
def hasTerminator : List Char → Bool
  | [] => false
  | c :: rest => List.isPrefixOf Server.endOfContentChars (c :: rest) || hasTerminator rest

/-- Whether a resolution outcome is the missing-leading-separator error. -/
def isStartSlashError : Except ResolveError HttpPathT → Bool
  | Except.error (ResolveError.PathShouldStartWithSlash _) => true
  | _ => false

/-- Whether a resolution outcome is the `InvalidPath` error (wrapped in
`ResolveError::HttpPathError`, as `Resolver::resolve` produces it). -/
def isInvalidPathError : Except ResolveError HttpPathT → Bool
  | Except.error (ResolveError.HttpPathError (ParseError.InvalidPath _)) => true
  | _ => false

end Turbine

deriving instance DecidableEq for Except

namespace Turbine

/-! ## Supporting lemmas about framing and parsing -/

/-- Theorem: the Rust split on "\r\n" never yields an empty list of lines. -/
theorem splitCRLF_ne_nil (s : List Char) : splitCRLF s ≠ [] := by
  induction s using splitCRLF.induct with
  | case1 => simp [splitCRLF]
  | case2 rest ih => simp [splitCRLF]
  | case3 c rest h hnil ih => rw [splitCRLF.eq_3 c rest h, hnil]; simp
  | case4 c rest h l ls hcons ih => rw [splitCRLF.eq_3 c rest h, hcons]; simp

/-- Theorem: the first element produced by the split is the first line. -/
theorem head?_splitCRLF (s : List Char) : (splitCRLF s).head? = some (firstLineOf s) := by
  induction s using splitCRLF.induct with
  | case1 => simp [splitCRLF, firstLineOf]
  | case2 rest ih => simp [splitCRLF, firstLineOf]
  | case3 c rest h hnil ih => exact absurd hnil (splitCRLF_ne_nil rest)
  | case4 c rest h l ls hcons ih =>
    rw [splitCRLF.eq_3 c rest h, hcons, firstLineOf.eq_3 c rest h]
    rw [hcons] at ih
    simp at ih
    simp [ih]

/-- Theorem: appending anything after a text that already contains "\r\n"
does not change its first line. -/
theorem firstLineOf_append (P T : List Char) (h : hasCRLF P = true) :
    firstLineOf (P ++ T) = firstLineOf P := by
  induction P using hasCRLF.induct with
  | case1 => simp [hasCRLF] at h
  | case2 rest => simp [firstLineOf]
  | case3 c rest hne ih =>
    rw [hasCRLF.eq_3 c rest hne] at h
    rw [firstLineOf.eq_3 c rest hne]
    have hrest : rest ≠ [] := by
      intro he
      rw [he] at h
      simp [hasCRLF] at h
    have hne2 : ∀ (r1 : List Char), c = '\r' → rest ++ T = '\n' :: r1 → False := by
      intro r1 hc hr
      rcases rest with _ | ⟨d, rest'⟩
      · exact hrest rfl
      · simp at hr
        exact hne rest' hc (by rw [hr.1])
    rw [List.cons_append, firstLineOf.eq_3 c (rest ++ T) hne2, ih h]

/-- Theorem: a text with "\r\n" spliced into it contains "\r\n". -/
theorem hasCRLF_append_crlf (pre rest : List Char) :
    hasCRLF (pre ++ '\r' :: '\n' :: rest) = true := by
  induction pre with
  | nil => simp [hasCRLF]
  | cons c pre ih =>
    rw [List.cons_append]
    by_cases hc : ∀ (r1 : List Char), c = '\r' → pre ++ '\r' :: '\n' :: rest = '\n' :: r1 → False
    · rw [hasCRLF.eq_3 c _ hc]; exact ih
    · push_neg at hc
      obtain ⟨r1, hc, hr⟩ := hc
      rw [hc, hr.1]
      simp [hasCRLF]

/-- Theorem: a text ending with the blank-line terminator contains "\r\n". -/
theorem hasCRLF_of_terminator (s : List Char) (h : Server.endsWithTerminator s = true) :
    hasCRLF s = true := by
  unfold Server.endsWithTerminator at h
  obtain ⟨t, ht⟩ := List.isSuffixOf_iff_suffix.mp h
  rw [← ht]
  unfold Server.endOfContentChars
  exact hasCRLF_append_crlf t ['\r', '\n']

/-- Theorem: the accumulation loop returns either everything the stream will
ever deliver, or a terminator-ended prefix of it. -/
theorem readStream_spec (chunks : List (List Char)) (acc : List Char) :
    Server.readStream chunks acc = acc ++ chunks.flatten ∨
      (Server.endsWithTerminator (Server.readStream chunks acc) = true ∧
        ∃ t, Server.readStream chunks acc ++ t = acc ++ chunks.flatten) := by
  induction chunks generalizing acc with
  | nil => left; simp [Server.readStream]
  | cons ch rest ih =>
    rw [Server.readStream]
    by_cases he : Server.endsWithTerminator (acc ++ ch) = true
    · rw [if_pos he]
      right
      exact ⟨he, rest.flatten, by simp⟩
    · rw [if_neg he]
      rcases ih (acc ++ ch) with h1 | ⟨h2, t, h3⟩
      · left; rw [h1]; simp
      · right; exact ⟨h2, t, by rw [h3]; simp⟩

/-- Theorem: a single-chunk stream accumulates to exactly that chunk. -/
theorem readStream_single (s : List Char) : Server.readStream [s] [] = s := by
  rw [Server.readStream]
  by_cases he : Server.endsWithTerminator ([] ++ s) = true
  · rw [if_pos he]; simp
  · rw [if_neg he]; simp [Server.readStream]

/-- Theorem: `Request::new` looks only at the first line of its input. -/
theorem request_new_eq (s : List Char) :
    Request.new s =
      (match Headers.new (splitWs (firstLineOf s)) with
        | Except.error e => Except.error e
        | Except.ok h => Except.ok { headers := h, body := [] }) := by
  unfold Request.new
  rw [head?_splitCRLF]

/-- Theorem: texts with equal first lines parse identically. -/
theorem request_new_firstLine (s s' : List Char) (h : firstLineOf s = firstLineOf s') :
    Request.new s = Request.new s' := by
  unfold Request.new
  rw [head?_splitCRLF, head?_splitCRLF, h]

/-- Theorem: `Headers::new` never reports an empty request. -/
theorem headers_new_not_empty (words : List (List Char)) :
    Headers.new words ≠ Except.error ParseError.EmptyRequest := by
  rcases words with _ | ⟨a, _ | ⟨b, _ | ⟨c, _ | ⟨d, t⟩⟩⟩⟩
  · simp [Headers.new]
  · simp [Headers.new]
  · simp [Headers.new]
  · by_cases h1 : a = ['G', 'E', 'T']
    · simp [Headers.new, h1]
    · by_cases h2 : a = ['P', 'O', 'S', 'T'] <;> simp [Headers.new, h1, h2]
  · simp [Headers.new]

/-! ## Supporting lemmas about path splitting -/

/-- Theorem: leading separators do not contribute path components. -/
theorem pathComps_dropWhile (s : List Char) :
    pathComps (s.dropWhile isSlash) = pathComps s := by
  induction s with
  | nil => rfl
  | cons c rest ih =>
    rw [List.dropWhile_cons]
    by_cases hc : isSlash c
    · rw [if_pos hc, ih]
      unfold pathComps
      rw [pathCompsAux]
      simp [hc]
    · rw [if_neg hc]

/-- Theorem: a trailing separator does not contribute path components
(accumulator form). -/
theorem pathCompsAux_append_slash (t : List Char) (cur : List Char) :
    pathCompsAux (t ++ ['/']) cur = pathCompsAux t cur := by
  induction t generalizing cur with
  | nil =>
    simp only [List.nil_append, pathCompsAux, isSlash]
    by_cases hc : cur.isEmpty <;> simp [hc, pathCompsAux]
  | cons c t ih =>
    simp only [List.cons_append, pathCompsAux]
    by_cases hc : isSlash c <;> simp [hc, ih]

/-- Theorem: a trailing separator does not contribute path components. -/
theorem pathComps_append_slash (t : List Char) :
    pathComps (t ++ ['/']) = pathComps t :=
  pathCompsAux_append_slash t []

/-! ## Claim theorems -/

/-- C1, corrected, counterexample: with `/srv/web/d` a directory whose
`index.html` is a symbolic link to `/etc/passwd`, resolving `/d` succeeds
with `/srv/web/d/index.html`, a path whose own canonicalization is
`/etc/passwd` — not a descendant of the document root.  The success path is
therefore not always a canonical descendant of the root. -/
theorem resolve_canonical_escape_cex :
    Resolver.resolve exFS exRoot ("/d".toList) =
      Except.ok ["srv", "web", "d", "index.html"] ∧
    canonicalize exFS ["srv", "web", "d", "index.html"] false = some ["etc", "passwd"] ∧
    List.isPrefixOf exRoot ["etc", "passwd"] = false := by
  refine ⟨by decide, by decide, by decide⟩

/-- C1, amended: every path returned by `Resolver::resolve` has the document
root as a component-wise prefix (the check at src/resolver.rs line 54 is the
last gate before `Ok`); in the directory case, however, the appended default
file is not re-canonicalized, so the returned path need not be a *canonical*
descendant of the root (see the counterexample). -/
theorem resolve_result_under_root (fs : FS) (root : HttpPathT) (r : List Char) (p : HttpPathT)
    (h : Resolver.resolve fs root r = Except.ok p) :
    List.isPrefixOf root p = true := by
  unfold Resolver.resolve at h
  by_cases hg : r.head? ≠ some '/'
  · rw [if_pos hg] at h; cases h
  · rw [if_neg hg] at h
    cases htf : HttpPath.try_from fs (root ++ pathComps (r.dropWhile isSlash))
        (trailingSlash (r.dropWhile isSlash)) with
    | error e => rw [htf] at h; cases h
    | ok q =>
      rw [htf] at h
      by_cases hp : List.isPrefixOf root q
      · simp only [hp, if_true] at h
        cases h
        exact hp
      · simp only [hp, if_false] at h
        cases h

/-- Witness for C1's amended theorem at the concrete input `/`. -/
theorem resolve_result_under_root_witness :
    List.isPrefixOf exRoot ["srv", "web", "index.html"] = true :=
  resolve_result_under_root exFS exRoot ("/".toList) ["srv", "web", "index.html"] (by decide)

/-- C2, code bug: on every success path the body chunk written by
`serve_file` is the hard-coded page, not the contents of the resolved file
(`fs::read_to_string` is commented out in `Server::get_resource_content`,
contradicting that function's own doc comment).  Concretely, `/` resolves to
`/srv/web/index.html` whose content is "hello", yet the page served says
"Welcome to turbine". -/
theorem serve_file_hardcoded_body :
    (∀ (fs : FS) (root : HttpPathT) (chunks : List (List Char)) (ws : List String),
        Server.serve_file fs root chunks = Except.ok ws → ws.getD 4 "" = Server.turbineHtml) ∧
    Resolver.resolve exFS exRoot ("/".toList) = Except.ok ["srv", "web", "index.html"] ∧
    exFS.content ["srv", "web", "index.html"] = some "hello" ∧
    (Server.turbineHtml == "hello") = false := by
  refine ⟨?_, by decide, by decide, by decide⟩
  intro fs root chunks ws h
  unfold Server.serve_file at h
  cases hreq : Server.read_stream_content_to_end chunks with
  | error e => rw [hreq] at h; cases h
  | ok request =>
    rw [hreq] at h
    simp only [] at h
    cases hres : Server.parse_request request root fs with
    | error e => rw [hres] at h; cases h
    | ok resource =>
      rw [hres] at h
      unfold Server.get_resource_content at h
      simp at h
      rw [← h]
      rfl

set_option maxRecDepth 8192 in
/-- Witness for C2's theorem at a concrete connection. -/
theorem serve_file_hardcoded_body_witness :
    exResponse.getD 4 "" = Server.turbineHtml :=
  serve_file_hardcoded_body.1 exFS exRoot [("GET / HTTP/1.1\r\n\r\n".toList)] exResponse
    (by decide)

/-- C3, corrected, counterexample: `/srv/web/emptydir` is an existing
directory containing no `index.html`, yet resolving `/emptydir` succeeds with
`/srv/web/emptydir/index.html` — the resolver does not fail when the joined
default file does not exist (no validation is repeated after the join at
src/http.rs line 139). -/
theorem resolve_missing_default_cex :
    Resolver.resolve exFS exRoot ("/emptydir".toList) =
      Except.ok ["srv", "web", "emptydir", "index.html"] ∧
    exFS.lookup ["srv", "web", "emptydir", "index.html"] = none := by
  refine ⟨by decide, by decide⟩

/-- C3, amended: when the canonicalized candidate is an existing directory
and the joined result passes the document-root check, resolution returns the
directory with `index.html` joined on — unconditionally: neither existence
nor containment of the default file is re-validated (the claim's concrete
example `/foo` → `/srv/web/foo/index.html` is the witness). -/
theorem resolve_directory_default (fs : FS) (root : HttpPathT) (r : List Char) (q : HttpPathT)
    (h1 : r.head? = some '/')
    (h2 : canonicalize fs (root ++ pathComps (r.dropWhile isSlash))
            (trailingSlash (r.dropWhile isSlash)) = some q)
    (h3 : fs.isDir q = true)
    (h4 : List.isPrefixOf root (q ++ ["index.html"]) = true) :
    Resolver.resolve fs root r = Except.ok (q ++ ["index.html"]) := by
  have hfile : fs.isFile q = false := by
    simp [FS.isDir] at h3
    simp [FS.isFile, h3]
  have htf : HttpPath.try_from fs (root ++ pathComps (r.dropWhile isSlash))
      (trailingSlash (r.dropWhile isSlash)) = Except.ok (q ++ ["index.html"]) := by
    unfold HttpPath.try_from
    rw [h2]
    simp [hfile, h3]
  unfold Resolver.resolve
  rw [if_neg (by simp [h1]), htf]
  simp [h4]

/-- Witness for C3's amended theorem: `/foo` resolves to
`/srv/web/foo/index.html`, the spec's concrete scenario. -/
theorem resolve_directory_default_witness :
    Resolver.resolve exFS exRoot ("/foo".toList) =
      Except.ok (["srv", "web", "foo"] ++ ["index.html"]) :=
  resolve_directory_default exFS exRoot ("/foo".toList) ["srv", "web", "foo"]
    (by decide) (by decide) (by decide) (by decide)

/-- C4, confirmed: a resource not starting with `/` is always rejected with
`PathShouldStartWithSlash` carrying the resource, and a resource starting
with `/` never produces that error. -/
theorem resolve_leading_slash (fs : FS) (root : HttpPathT) (r : List Char) :
    (r.head? ≠ some '/' →
      Resolver.resolve fs root r = Except.error (ResolveError.PathShouldStartWithSlash r)) ∧
    (r.head? = some '/' → isStartSlashError (Resolver.resolve fs root r) = false) := by
  constructor
  · intro h
    unfold Resolver.resolve
    rw [if_pos h]
  · intro h
    unfold Resolver.resolve
    rw [if_neg (by simp [h])]
    cases htf : HttpPath.try_from fs (root ++ pathComps (r.dropWhile isSlash))
        (trailingSlash (r.dropWhile isSlash)) with
    | error e => simp [isStartSlashError]
    | ok p =>
      by_cases hp : List.isPrefixOf root p
      · simp [hp, isStartSlashError]
      · simp [hp, isStartSlashError]

/-- Witness for C4 at the concrete inputs `foo` (rejected) and `/`
(not rejected). -/
theorem resolve_leading_slash_witness :
    Resolver.resolve exFS exRoot ("foo".toList) =
      Except.error (ResolveError.PathShouldStartWithSlash ("foo".toList)) ∧
    isStartSlashError (Resolver.resolve exFS exRoot ("/".toList)) = false :=
  ⟨(resolve_leading_slash exFS exRoot ("foo".toList)).1 (by decide),
   (resolve_leading_slash exFS exRoot ("/".toList)).2 (by decide)⟩

/-- C5, corrected, counterexample: a candidate that does not exist at all
(`/missing`) makes canonicalization fail, so resolution reports the wrapped
IO error — not `InvalidPath`; `InvalidPath` is reserved for existing entries
that are neither files nor directories, and it carries the canonicalized
path, not the raw candidate. -/
theorem resolve_nonexistent_io_cex :
    Resolver.resolve exFS exRoot ("/missing".toList) =
      Except.error (ResolveError.HttpPathError ParseError.IOError) ∧
    isInvalidPathError (Resolver.resolve exFS exRoot ("/missing".toList)) = false ∧
    exFS.lookup ["srv", "web", "missing"] = none := by
  refine ⟨by decide, by decide, by decide⟩

/-- C5, amended: when canonicalization of the candidate fails (for example
because it does not exist) resolution fails with the wrapped IO error, and
when the canonicalized candidate exists but is neither a regular file nor a
directory resolution fails with `InvalidPath` carrying the canonicalized
path; the error constructors are distinct. -/
theorem resolve_error_classification (fs : FS) (root : HttpPathT) (r : List Char)
    (h1 : r.head? = some '/') :
    (canonicalize fs (root ++ pathComps (r.dropWhile isSlash))
        (trailingSlash (r.dropWhile isSlash)) = none →
      Resolver.resolve fs root r =
        Except.error (ResolveError.HttpPathError ParseError.IOError)) ∧
    (∀ q : HttpPathT, canonicalize fs (root ++ pathComps (r.dropWhile isSlash))
        (trailingSlash (r.dropWhile isSlash)) = some q →
      fs.isFile q = false → fs.isDir q = false →
      Resolver.resolve fs root r =
        Except.error (ResolveError.HttpPathError (ParseError.InvalidPath q))) := by
  constructor
  · intro h2
    have htf : HttpPath.try_from fs (root ++ pathComps (r.dropWhile isSlash))
        (trailingSlash (r.dropWhile isSlash)) = Except.error ParseError.IOError := by
      unfold HttpPath.try_from
      rw [h2]
    unfold Resolver.resolve
    rw [if_neg (by simp [h1]), htf]
  · intro q h2 hfile hdir
    have htf : HttpPath.try_from fs (root ++ pathComps (r.dropWhile isSlash))
        (trailingSlash (r.dropWhile isSlash)) =
        Except.error (ParseError.InvalidPath q) := by
      unfold HttpPath.try_from
      rw [h2]
      simp [hfile, hdir]
    unfold Resolver.resolve
    rw [if_neg (by simp [h1]), htf]

/-- Witness for C5's amended theorem: `/missing` (IO error) and `/sock`
(a socket, `InvalidPath`). -/
theorem resolve_error_classification_witness :
    Resolver.resolve exFS exRoot ("/missing".toList) =
      Except.error (ResolveError.HttpPathError ParseError.IOError) ∧
    Resolver.resolve exFS exRoot ("/sock".toList) =
      Except.error (ResolveError.HttpPathError (ParseError.InvalidPath ["srv", "web", "sock"])) :=
  ⟨(resolve_error_classification exFS exRoot ("/missing".toList) (by decide)).1 (by decide),
   (resolve_error_classification exFS exRoot ("/sock".toList) (by decide)).2
     ["srv", "web", "sock"] (by decide) (by decide) (by decide)⟩

/-- C6, corrected, counterexample: for the regular file `/srv/web/bar.html`,
resolving `/bar.html/` fails (POSIX `realpath` rejects a trailing separator
on a non-directory, so `fs::canonicalize` reports `ENOTDIR`) while resolving
`/bar.html` succeeds — the results are not identical. -/
theorem resolve_trailing_slash_cex :
    Resolver.resolve exFS exRoot ("/bar.html".toList ++ ['/']) =
      Except.error (ResolveError.HttpPathError ParseError.IOError) ∧
    Resolver.resolve exFS exRoot ("/bar.html".toList) =
      Except.ok ["srv", "web", "bar.html"] ∧
    decide (Resolver.resolve exFS exRoot ("/bar.html".toList ++ ['/']) =
      Resolver.resolve exFS exRoot ("/bar.html".toList)) = false := by
  refine ⟨by decide, by decide, by decide⟩

/-- C6, amended: appending a trailing separator leaves the result unchanged
whenever the candidate's components resolve to an existing directory (in
particular for every directory resource); the two resolutions differ when
the candidate resolves to a non-directory, where the trailing-separator form
fails canonicalization. -/
theorem resolve_trailing_slash_dir (fs : FS) (root : HttpPathT) (r : List Char) (q : HttpPathT)
    (h1 : r.head? = some '/')
    (h2 : resolveComps fs linkFuel [] (root ++ pathComps (r.dropWhile isSlash)) = some q)
    (h3 : fs.isDir q = true) :
    Resolver.resolve fs root (r ++ ['/']) = Resolver.resolve fs root r := by
  have hcomps : pathComps ((r ++ ['/']).dropWhile isSlash) = pathComps (r.dropWhile isSlash) := by
    rw [pathComps_dropWhile, pathComps_append_slash, ← pathComps_dropWhile r]
  have hguard : (r ++ ['/']).head? = some '/' := by
    cases r with
    | nil => cases h1
    | cons c rest => simpa using h1
  have hcanon : ∀ b, canonicalize fs (root ++ pathComps (r.dropWhile isSlash)) b = some q := by
    intro b
    unfold canonicalize
    rw [h2]
    cases b <;> simp [h3]
  have htf : ∀ b b2, HttpPath.try_from fs (root ++ pathComps (r.dropWhile isSlash)) b =
      HttpPath.try_from fs (root ++ pathComps (r.dropWhile isSlash)) b2 := by
    intro b b2
    unfold HttpPath.try_from
    rw [hcanon b, hcanon b2]
  unfold Resolver.resolve
  rw [if_neg (by simp [hguard]), if_neg (by simp [h1]), hcomps,
    htf (trailingSlash ((r ++ ['/']).dropWhile isSlash)) (trailingSlash (r.dropWhile isSlash))]

/-- Witness for C6's amended theorem at the directory resource `/foo`. -/
theorem resolve_trailing_slash_dir_witness :
    Resolver.resolve exFS exRoot ("/foo".toList ++ ['/']) =
      Resolver.resolve exFS exRoot ("/foo".toList) :=
  resolve_trailing_slash_dir exFS exRoot ("/foo".toList) ["srv", "web", "foo"]
    (by decide) (by decide) (by decide)

/-- C7, confirmed: a stream delivered in arbitrary chunks and the same bytes
delivered as a single chunk frame to identical parsed requests whenever the
blank-line terminator occurs in the stream (the accumulated text is then
either the whole stream or a terminator-ended prefix of it, and parsing only
ever looks at the first line, which both share). -/
theorem framing_chunk_invariance (chunks : List (List Char))
    (h : hasTerminator chunks.flatten = true) :
    Server.read_stream_content_to_end chunks =
      Server.read_stream_content_to_end [chunks.flatten] := by
  unfold Server.read_stream_content_to_end
  rw [readStream_single]
  rcases readStream_spec chunks [] with h1 | ⟨h2, t, h3⟩
  · rw [h1]; simp
  · simp only [List.nil_append] at h3
    apply request_new_firstLine
    rw [← h3]
    exact (firstLineOf_append _ t (hasCRLF_of_terminator _ h2)).symm

/-- Witness for C7 on a concrete three-chunk delivery of a request. -/
theorem framing_chunk_invariance_witness :
    Server.read_stream_content_to_end
        [("GET / HT".toList), ("TP/1.1\r".toList), ("\n\r\n".toList)] =
      Server.read_stream_content_to_end
        [([("GET / HT".toList), ("TP/1.1\r".toList), ("\n\r\n".toList)].flatten)] :=
  framing_chunk_invariance
    [("GET / HT".toList), ("TP/1.1\r".toList), ("\n\r\n".toList)] (by decide)

/-- C8, confirmed: the first line must split into exactly three
whitespace-separated tokens, otherwise `InvalidHeaders`; with three tokens a
method other than exactly "GET" or "POST" gives `InvalidMethod` carrying the
token; otherwise parsing succeeds with the raw second token as the resource;
and `GET / HTTP/1.1\r\n\r\n` frames to (Get, "/", "HTTP/1.1"). -/
theorem headers_parsing_spec :
    (∀ words : List (List Char), words.length ≠ 3 →
        Headers.new words = Except.error ParseError.InvalidHeaders) ∧
    (∀ m r v : List Char, m ≠ "GET".toList → m ≠ "POST".toList →
        Headers.new [m, r, v] = Except.error (ParseError.InvalidMethod m)) ∧
    (∀ r v : List Char,
        Headers.new ["GET".toList, r, v] =
          Except.ok { method := Method.Get, resource := r, version := v, other_headers := [] } ∧
        Headers.new ["POST".toList, r, v] =
          Except.ok { method := Method.Post, resource := r, version := v, other_headers := [] }) ∧
    Request.new ("GET / HTTP/1.1\r\n\r\n".toList) =
      Except.ok { headers := { method := Method.Get, resource := "/".toList,
                               version := "HTTP/1.1".toList, other_headers := [] },
                  body := [] } := by
  refine ⟨?_, ?_, ?_, by decide⟩
  · intro words h
    rcases words with _ | ⟨a, _ | ⟨b, _ | ⟨c, _ | ⟨d, t⟩⟩⟩⟩
    · simp [Headers.new]
    · simp [Headers.new]
    · simp [Headers.new]
    · simp at h
    · simp [Headers.new]
  · intro m r v h1 h2
    have h1' : m ≠ ['G', 'E', 'T'] := h1
    have h2' : m ≠ ['P', 'O', 'S', 'T'] := h2
    simp [Headers.new, h1', h2']
  · intro r v
    constructor
    · simp [Headers.new]
    · have hpost : ("POST".toList : List Char) ≠ ['G', 'E', 'T'] := by decide
      simp [Headers.new, hpost]

/-- Witness for C8: a four-token header line, a `PUT` method, a `POST`
success, all at concrete tokens. -/
theorem headers_parsing_spec_witness :
    Headers.new [("GET".toList), ("/".toList), ("HTTP/1.1".toList), ("x".toList)] =
      Except.error ParseError.InvalidHeaders ∧
    Headers.new [("PUT".toList), ("/".toList), ("HTTP/1.1".toList)] =
      Except.error (ParseError.InvalidMethod ("PUT".toList)) ∧
    Headers.new [("POST".toList), ("/a".toList), ("HTTP/1.1".toList)] =
      Except.ok { method := Method.Post, resource := "/a".toList,
                  version := "HTTP/1.1".toList, other_headers := [] } :=
  ⟨headers_parsing_spec.1 [("GET".toList), ("/".toList), ("HTTP/1.1".toList), ("x".toList)]
      (by decide),
   headers_parsing_spec.2.1 ("PUT".toList) ("/".toList) ("HTTP/1.1".toList)
      (by decide) (by decide),
   (headers_parsing_spec.2.2.1 ("/a".toList) ("HTTP/1.1".toList)).2⟩

/-- C9, confirmed: on the success path the Content-Length header chunk that
`serve_file` writes carries exactly the length of the written body chunk plus
the length of the trailing terminator, which is 4. -/
theorem serve_file_content_length (fs : FS) (root : HttpPathT) (chunks : List (List Char))
    (ws : List String) (h : Server.serve_file fs root chunks = Except.ok ws) :
    ws[2]? = some ("Content-Length: " ++
        toString ((ws.getD 4 "").length + Server.END_OF_CONTENT.length) ++ "\r\n") ∧
      Server.END_OF_CONTENT.length = 4 := by
  unfold Server.serve_file at h
  cases hreq : Server.read_stream_content_to_end chunks with
  | error e => rw [hreq] at h; cases h
  | ok request =>
    rw [hreq] at h
    simp only [] at h
    cases hres : Server.parse_request request root fs with
    | error e => rw [hres] at h; cases h
    | ok resource =>
      rw [hres] at h
      unfold Server.get_resource_content at h
      simp at h
      rw [← h]
      refine ⟨?_, by decide⟩
      simp [List.getD]

set_option maxRecDepth 8192 in
/-- Witness for C9 at a concrete connection serving the hard-coded page. -/
theorem serve_file_content_length_witness :
    exResponse[2]? = some ("Content-Length: " ++
        toString ((exResponse.getD 4 "").length + Server.END_OF_CONTENT.length) ++ "\r\n") ∧
      Server.END_OF_CONTENT.length = 4 :=
  serve_file_content_length exFS exRoot [("GET / HTTP/1.1\r\n\r\n".toList)] exResponse
    (by decide)

/-- C10, confirmed: `Request::new` can never return `EmptyRequest` —
splitting any text on "\r\n" yields at least one line, so the `ok_or`
branch is unreachable — and the empty input fails with `InvalidHeaders`
instead (its zero-token first line). -/
theorem request_new_never_empty :
    (∀ s : List Char, (Request.new s = Except.error ParseError.EmptyRequest) = False) ∧
    Request.new [] = Except.error ParseError.InvalidHeaders := by
  constructor
  · intro s
    apply eq_false
    intro hcon
    rw [request_new_eq] at hcon
    cases hh : Headers.new (splitWs (firstLineOf s)) with
    | error e =>
      rw [hh] at hcon
      simp at hcon
      exact headers_new_not_empty _ (by rw [hh, hcon])
    | ok h => rw [hh] at hcon; cases hcon
  · decide

end Turbine
